import Mathlib

/-!
Verification of the VocabApp spaced-repetition core.

The development shallowly embeds the SM-2 scheduler (`sm2` from
`lib/spaced-repetition/sm2.ts`), the review-session controller
(`handleReview` of the review page component) and the due-word query
(`getDueWords` from `lib/services/words.ts`).

Modelling conventions:
* JavaScript numbers are modelled exactly: integer-valued quantities
  (`quality`, `repetitions`, `intervalDays`) as `ℤ`, the fractional
  `easeFactor` as `ℚ` (the decimal literals of the source are exact in `ℚ`).
* Timestamps are modelled as an abstract day count `ℤ`; the source's
  calendar-day addition `nextDate.setDate(nextDate.getDate() + intervalDays)`
  becomes `clockNow + intervalDays`.
* The source's ambient clock read `new Date()` inside `sm2` is made an
  explicit extra argument `clockNow`, so that the effect of the hidden
  clock on the output can be stated and proved.
* The word store is modelled as a list of rows; the Supabase query
  combinators of `getDueWords` (`.lte` then `.order` ascending) are modelled
  as a filter followed by a stable sort of the table's rows.
-/

namespace VocabApp

/-- The `SM2State` interface of the source: `repetitions`, `easeFactor`,
`intervalDays` and the scheduled `nextReviewAt` timestamp. -/
@[ext]
structure SM2State where
  repetitions : ℤ
  easeFactor : ℚ
  intervalDays : ℤ
  nextReviewAt : ℤ
  deriving DecidableEq, Repr

/-- `Math.round(x * 100) / 100` of the source: round to two decimal
places, halves rounding up (JavaScript `Math.round` is `⌊x + 1/2⌋`). -/
def round2 (x : ℚ) : ℚ := (⌊x * 100 + 1 / 2⌋ : ℚ) / 100

/-- The `sm2` function of the source, line by line.  `quality` is the
review rating (1 = Hard, 3 = Neutral, 5 = Easy), `state` the current
scheduling state, and `clockNow` models the value of the ambient clock
read `new Date()` that the source performs internally. -/
def sm2 (quality : ℤ) (state : SM2State) (clockNow : ℤ) : SM2State :=
  let repetitions1 : ℤ := if 3 ≤ quality then state.repetitions + 1 else 0
  let intervalDays1 : ℤ :=
    if 3 ≤ quality then
      if state.repetitions = 0 then 1
      else if state.repetitions = 1 then 6
      else ⌈(state.intervalDays : ℚ) * state.easeFactor⌉
    else 1
  let easeRaw : ℚ :=
    state.easeFactor +
      ((0.1 : ℚ) - (5 - (quality : ℚ)) * ((0.08 : ℚ) + (5 - (quality : ℚ)) * (0.02 : ℚ)))
  let easeClamped : ℚ := if easeRaw < (1.3 : ℚ) then (1.3 : ℚ) else easeRaw
  { repetitions := repetitions1
    easeFactor := round2 easeClamped
    intervalDays := intervalDays1
    nextReviewAt := clockNow + intervalDays1 }

/-- A row of the `words` table (the `VocabWord` interface of
`lib/services/words.ts`). -/
@[ext]
structure VocabWord where
  id : String
  word : String
  translation : String
  definition : String
  «example» : String
  audio_url : Option String
  category : String
  repetitions : ℤ
  ease_factor : ℚ
  interval_days : ℤ
  next_review_at : ℤ
  created_at : ℤ
  deriving DecidableEq, Repr

/-- The scheduling state the controller reads off a word row before
calling `sm2` (the camelCase object literal built in `handleReview`). -/
def wordState (w : VocabWord) : SM2State :=
  { repetitions := w.repetitions
    easeFactor := w.ease_factor
    intervalDays := w.interval_days
    nextReviewAt := w.next_review_at }

/-- The payload of the single `updateWord` call of `handleReview`: the new
snake_case scheduling columns plus the derived `category`. -/
structure WordUpdate where
  repetitions : ℤ
  ease_factor : ℚ
  interval_days : ℤ
  next_review_at : ℤ
  category : String
  deriving DecidableEq, Repr

/-- The quality-to-category mapping of `handleReview`:
`quality === 5 ? "learned" : quality === 1 ? "difficult" : "learning"`. -/
def categoryFor (quality : ℤ) : String :=
  if quality = 5 then "learned" else if quality = 1 then "difficult" else "learning"

/-- The single update `handleReview` issues for the current word: the word
id it is keyed by, and the payload mapping the camelCase `sm2` output to
the snake_case columns together with `category`. -/
def reviewUpdate (w : VocabWord) (quality : ℤ) (clockNow : ℤ) : String × WordUpdate :=
  let newState := sm2 quality (wordState w) clockNow
  (w.id,
   { repetitions := newState.repetitions
     ease_factor := newState.easeFactor
     interval_days := newState.intervalDays
     next_review_at := newState.nextReviewAt
     category := categoryFor quality })

/-- The React state of the review page: the due queue, the cursor, the
revealed flag, the session-complete flag and the reviewed count. -/
@[ext]
structure SessionState where
  dueWords : List VocabWord
  currentIndex : ℕ
  revealed : Bool
  sessionComplete : Bool
  reviewed : ℕ
  deriving Repr

/-- One call of the controller's `handleReview`.  `persistOk` models
whether the awaited `updateWord` call succeeds; the result is the new
session state, the update that was attempted (`none` when there is no
current word, in which case the handler returns at once), and whether a
failure was reported (the `console.error` of the catch block). -/
def handleReview (st : SessionState) (quality : ℤ) (clockNow : ℤ) (persistOk : Bool) :
    SessionState × Option (String × WordUpdate) × Bool :=
  match st.dueWords.get? st.currentIndex with
  | none => (st, none, false)
  | some w =>
    let upd := reviewUpdate w quality clockNow
    if persistOk then
      ((if st.currentIndex + 1 < st.dueWords.length then
          { st with reviewed := st.reviewed + 1, revealed := false,
                    currentIndex := st.currentIndex + 1 }
        else
          { st with reviewed := st.reviewed + 1, revealed := false,
                    sessionComplete := true }),
       some upd, false)
    else
      (st, some upd, true)

/-- The ascending `next_review_at` order the due-word query asks the store
for (`.order("next_review_at", { ascending: true })`). -/
def dueOrder (a b : VocabWord) : Prop := a.next_review_at ≤ b.next_review_at

instance : DecidableRel dueOrder :=
  fun a b => inferInstanceAs (Decidable (a.next_review_at ≤ b.next_review_at))

instance : IsTotal VocabWord dueOrder :=
  ⟨fun a b => Int.le_total a.next_review_at b.next_review_at⟩

instance : IsTrans VocabWord dueOrder := ⟨fun _ _ _ => Int.le_trans⟩

/-- The `getDueWords` query of `lib/services/words.ts`:
`.select("*").lte("next_review_at", now).order("next_review_at", ascending)`
over the current table rows, modelled as filter-then-sort. -/
def getDueWords (table : List VocabWord) (now : ℤ) : List VocabWord :=
  List.insertionSort dueOrder (table.filter (fun w => decide (w.next_review_at ≤ now)))

/-- One Easy (`quality = 5`) review step; the clock argument is fixed at 0
because the scheduling fields do not depend on it. -/
def easyStep (s : SM2State) : SM2State := sm2 5 s 0

/-- `n` successive Easy reviews. -/
def easyIter (s : SM2State) : ℕ → SM2State
  | 0 => s
  | n + 1 => easyStep (easyIter s n)

/-- A sample word row, used to instantiate universally quantified
theorems at concrete inputs. -/
def sampleWord (i : String) (due : ℤ) : VocabWord :=
  { id := i
    word := i
    translation := "译"
    definition := "a sample definition"
    «example» := "a sample sentence"
    audio_url := none
    category := "learning"
    repetitions := 0
    ease_factor := 2.5
    interval_days := 0
    next_review_at := due
    created_at := 0 }

end VocabApp

namespace VocabApp

/-- Sanity check against Scenario A of the spec. -/
example :
    sm2 5 { repetitions := 0, easeFactor := 2.5, intervalDays := 0, nextReviewAt := 0 } 0 =
      { repetitions := 1, easeFactor := 2.6, intervalDays := 1, nextReviewAt := 1 } := by
  norm_num [sm2, round2, SM2State.ext_iff]

/-- Sanity check against Scenario B of the spec. -/
example :
    sm2 5 { repetitions := 1, easeFactor := 2.6, intervalDays := 1, nextReviewAt := 0 } 0 =
      { repetitions := 2, easeFactor := 2.7, intervalDays := 6, nextReviewAt := 6 } := by
  norm_num [sm2, round2, SM2State.ext_iff]

/-- Scenario C of the spec: failure from a seasoned state resets the
schedule and drops the ease factor to `1.46`. -/
example :
    sm2 1 { repetitions := 5, easeFactor := 2.0, intervalDays := 30, nextReviewAt := 0 } 0 =
      { repetitions := 0, easeFactor := 1.46, intervalDays := 1, nextReviewAt := 1 } := by
  norm_num [sm2, round2, SM2State.ext_iff]

/-- `round2` never moves a value below a two-decimal bound it satisfies:
in particular a value at least `1.3` rounds to at least `1.3`. -/
theorem le_round2_of_le (x : ℚ) (h : (1.3 : ℚ) ≤ x) : (1.3 : ℚ) ≤ round2 x := by
  unfold round2
  have h1 : (130 : ℤ) ≤ ⌊x * 100 + 1 / 2⌋ := by
    rw [Int.le_floor]
    push_cast
    nlinarith
  have h2 : (130 : ℚ) ≤ (⌊x * 100 + 1 / 2⌋ : ℚ) := by exact_mod_cast h1
  nlinarith

/-- `round2` overshoots its argument by at most half a unit in the last
place: `round2 x ≤ x + 1/200`. -/
theorem round2_le (x : ℚ) : round2 x ≤ x + 1 / 200 := by
  unfold round2
  have h1 : (⌊x * 100 + 1 / 2⌋ : ℚ) ≤ x * 100 + 1 / 2 := Int.floor_le _
  nlinarith

/-- The ease factor `sm2` returns is at least `1.3`, for any quality and
any input state: the clamp runs unconditionally before the rounding. -/
theorem sm2_easeFactor_lb (quality : ℤ) (state : SM2State) (clockNow : ℤ) :
    (1.3 : ℚ) ≤ (sm2 quality state clockNow).easeFactor := by
  show (1.3 : ℚ) ≤ round2 _
  apply le_round2_of_le
  split
  · exact le_rfl
  · next h => exact le_of_not_lt h

/-- C1: for every current state and every integer quality, `sm2` follows
the SM-2 schedule: on success (`quality ≥ 3`) the new `intervalDays` is 1
when `repetitions = 0`, 6 when `repetitions = 1`, and
`⌈intervalDays * easeFactor⌉` otherwise, with `repetitions` incremented by
1; on failure (`quality < 3`) the state resets totally to
`repetitions = 0`, `intervalDays = 1`. -/
theorem sm2_schedule (quality : ℤ) (state : SM2State) (clockNow : ℤ) :
    (3 ≤ quality →
      (sm2 quality state clockNow).repetitions = state.repetitions + 1 ∧
      (sm2 quality state clockNow).intervalDays =
        (if state.repetitions = 0 then 1
         else if state.repetitions = 1 then 6
         else ⌈(state.intervalDays : ℚ) * state.easeFactor⌉)) ∧
    (quality < 3 →
      (sm2 quality state clockNow).repetitions = 0 ∧
      (sm2 quality state clockNow).intervalDays = 1) := by
  constructor
  · intro h
    simp [sm2, h]
  · intro h
    simp [sm2, not_le.mpr h]

/-- Witness for C1 at concrete inputs: a success from `repetitions = 2`
multiplies the interval, a failure from a seasoned state resets. -/
theorem sm2_schedule_witness :
    (sm2 5 { repetitions := 2, easeFactor := 2.5, intervalDays := 10, nextReviewAt := 0 }
        0).repetitions = 3 ∧
    (sm2 5 { repetitions := 2, easeFactor := 2.5, intervalDays := 10, nextReviewAt := 0 }
        0).intervalDays = 25 ∧
    (sm2 1 { repetitions := 7, easeFactor := 2.5, intervalDays := 40, nextReviewAt := 0 }
        0).repetitions = 0 ∧
    (sm2 1 { repetitions := 7, easeFactor := 2.5, intervalDays := 40, nextReviewAt := 0 }
        0).intervalDays = 1 := by
  have h5 :=
    (sm2_schedule 5 { repetitions := 2, easeFactor := 2.5, intervalDays := 10, nextReviewAt := 0 }
      0).1 (by norm_num)
  have h1 :=
    (sm2_schedule 1 { repetitions := 7, easeFactor := 2.5, intervalDays := 40, nextReviewAt := 0 }
      0).2 (by norm_num)
  refine ⟨h5.1, ?_, h1.1, h1.2⟩
  rw [h5.2]
  norm_num

/-- C2: for every current state and every quality, the returned ease
factor is the SM-2 update `easeFactor + (0.1 - (5-q)(0.08 + (5-q)·0.02))`,
clamped up to `1.3` when the result is below `1.3`, then rounded to two
decimal places — and this is applied on both the success and failure
branches (the expression does not depend on the `quality ≥ 3` test). -/
theorem sm2_easeFactor_eq (quality : ℤ) (state : SM2State) (clockNow : ℤ) :
    (sm2 quality state clockNow).easeFactor =
      round2
        (if state.easeFactor +
              ((0.1 : ℚ) -
                (5 - (quality : ℚ)) * ((0.08 : ℚ) + (5 - (quality : ℚ)) * (0.02 : ℚ))) <
            (1.3 : ℚ) then
          (1.3 : ℚ)
         else
          state.easeFactor +
            ((0.1 : ℚ) -
              (5 - (quality : ℚ)) * ((0.08 : ℚ) + (5 - (quality : ℚ)) * (0.02 : ℚ)))) := rfl

/-- C3: for every input state with `easeFactor ≥ 1.3` and every quality in
`{1, 3, 5}`, the state `sm2` returns has `easeFactor ≥ 1.3`: the clamp
invariant survives the rounding to two decimal places. -/
theorem sm2_clamp_invariant (quality : ℤ) (state : SM2State) (clockNow : ℤ)
    (hstate : (1.3 : ℚ) ≤ state.easeFactor) (hq : quality = 1 ∨ quality = 3 ∨ quality = 5) :
    (1.3 : ℚ) ≤ (sm2 quality state clockNow).easeFactor :=
  sm2_easeFactor_lb quality state clockNow

/-- Witness for C3: the clamp invariant at `easeFactor = 1.3`, Neutral. -/
theorem sm2_clamp_invariant_witness :
    (1.3 : ℚ) ≤
      (sm2 3 { repetitions := 0, easeFactor := 1.3, intervalDays := 0, nextReviewAt := 0 }
        0).easeFactor :=
  sm2_clamp_invariant 3
    { repetitions := 0, easeFactor := 1.3, intervalDays := 0, nextReviewAt := 0 } 0
    (by norm_num) (Or.inr (Or.inl rfl))

/-- C4, counterexample: `sm2` does not take `now` as an explicit input —
it reads the ambient clock (`new Date()`), so the very same explicit
inputs (`quality = 3` and the default state) yield different
`nextReviewAt` when the hidden clock differs (day 0 versus day 100). -/
theorem sm2_hidden_clock_counterexample :
    (sm2 3 { repetitions := 0, easeFactor := 2.5, intervalDays := 0, nextReviewAt := 0 }
        0).nextReviewAt ≠
      (sm2 3 { repetitions := 0, easeFactor := 2.5, intervalDays := 0, nextReviewAt := 0 }
        100).nextReviewAt := by
  norm_num [sm2]

/-- C4, amended: `sm2`'s explicit inputs are only `quality` and `state`;
the ambient clock read, made an explicit argument `clockNow` of the model,
is a genuine further input.  Given it, the function is deterministic: the
scheduling fields `repetitions`, `easeFactor`, `intervalDays` depend only
on `(quality, state)`, while `nextReviewAt` is the clock reading plus the
new interval. -/
theorem sm2_deterministic_given_clock (quality : ℤ) (state : SM2State) (t t1 t2 : ℤ) :
    (sm2 quality state t1).repetitions = (sm2 quality state t2).repetitions ∧
    (sm2 quality state t1).easeFactor = (sm2 quality state t2).easeFactor ∧
    (sm2 quality state t1).intervalDays = (sm2 quality state t2).intervalDays ∧
    (sm2 quality state t).nextReviewAt = t + (sm2 quality state t).intervalDays :=
  ⟨rfl, rfl, rfl, rfl⟩

/-- C10: a Neutral review (`quality = 3`) counts as a successful recall
(`repetitions` is incremented) yet strictly decreases the ease factor
whenever it is above the `1.3` floor — the pre-clamp update adds
`0.1 - 2·(0.08 + 2·0.02) = -0.14` — while never taking it below `1.3`. -/
theorem sm2_neutral_decreases_ease (state : SM2State) (clockNow : ℤ)
    (h : (1.3 : ℚ) < state.easeFactor) :
    (sm2 3 state clockNow).easeFactor < state.easeFactor ∧
    (1.3 : ℚ) ≤ (sm2 3 state clockNow).easeFactor ∧
    (sm2 3 state clockNow).repetitions = state.repetitions + 1 := by
  refine ⟨?_, sm2_easeFactor_lb 3 state clockNow, by simp [sm2]⟩
  have hdelta :
      state.easeFactor +
          ((0.1 : ℚ) - (5 - ((3 : ℤ) : ℚ)) * ((0.08 : ℚ) + (5 - ((3 : ℤ) : ℚ)) * (0.02 : ℚ))) =
        state.easeFactor - 0.14 := by
    push_cast
    ring
  show round2 _ < state.easeFactor
  rw [hdelta]
  split
  · next hlt =>
      have : round2 (1.3 : ℚ) = (1.3 : ℚ) := by norm_num [round2]
      rw [this]
      exact h
  · next hge =>
      have hle := round2_le (state.easeFactor - 0.14)
      nlinarith

/-- Witness for C10 at `easeFactor = 2.5`: a Neutral review drops the
ease factor strictly below 2.5 while keeping it at least 1.3 and
incrementing `repetitions`. -/
theorem sm2_neutral_decreases_ease_witness :
    (sm2 3 { repetitions := 0, easeFactor := 2.5, intervalDays := 0, nextReviewAt := 0 }
        0).easeFactor < 2.5 ∧
    (1.3 : ℚ) ≤
      (sm2 3 { repetitions := 0, easeFactor := 2.5, intervalDays := 0, nextReviewAt := 0 }
        0).easeFactor ∧
    (sm2 3 { repetitions := 0, easeFactor := 2.5, intervalDays := 0, nextReviewAt := 0 }
        0).repetitions = 0 + 1 :=
  sm2_neutral_decreases_ease
    { repetitions := 0, easeFactor := 2.5, intervalDays := 0, nextReviewAt := 0 } 0
    (by norm_num)

/-- C9: the data-model invariant `repetitions ≥ 1 → intervalDays ≥ 1` is
preserved by `sm2` for every quality, on any input state with
`easeFactor ≥ 1.3` that satisfies it. -/
theorem sm2_interval_invariant (quality : ℤ) (state : SM2State) (clockNow : ℤ)
    (he : (1.3 : ℚ) ≤ state.easeFactor)
    (hinv : 1 ≤ state.repetitions → 1 ≤ state.intervalDays) :
    1 ≤ (sm2 quality state clockNow).repetitions →
      1 ≤ (sm2 quality state clockNow).intervalDays := by
  intro hrep
  by_cases hq : 3 ≤ quality
  · simp only [sm2, if_pos hq] at hrep ⊢
    by_cases h0 : state.repetitions = 0
    · simp [h0]
    · by_cases h1 : state.repetitions = 1
      · simp [h0, h1]
      · simp only [if_neg h0, if_neg h1]
        have hr : 1 ≤ state.repetitions := by omega
        have hd : 1 ≤ state.intervalDays := hinv hr
        have hd2 : (1 : ℚ) ≤ (state.intervalDays : ℚ) := by exact_mod_cast hd
        have hx : (0 : ℚ) < (state.intervalDays : ℚ) * state.easeFactor := by nlinarith
        have := Int.ceil_pos.mpr hx
        omega
  · simp [sm2, hq]

/-- Witness for C9: a success from `repetitions = 2`, `intervalDays = 1`,
`easeFactor = 1.3` keeps the interval at least 1. -/
theorem sm2_interval_invariant_witness :
    1 ≤ (sm2 5 { repetitions := 2, easeFactor := 1.3, intervalDays := 1, nextReviewAt := 0 }
        0).intervalDays :=
  sm2_interval_invariant 5
    { repetitions := 2, easeFactor := 1.3, intervalDays := 1, nextReviewAt := 0 } 0
    (by norm_num) (fun _ => by norm_num) (by norm_num [sm2])

/-- C5: the controller maps quality 5 to "learned", quality 1 to
"difficult" and any other quality (specifically 3) to "learning", and the
one update it issues is keyed by the word's id and carries this category
together with the new scheduling fields computed by `sm2`. -/
theorem handleReview_category_map (w : VocabWord) (quality clockNow : ℤ) :
    categoryFor 5 = "learned" ∧
    categoryFor 1 = "difficult" ∧
    categoryFor 3 = "learning" ∧
    (quality ≠ 5 → quality ≠ 1 → categoryFor quality = "learning") ∧
    (reviewUpdate w quality clockNow).1 = w.id ∧
    (reviewUpdate w quality clockNow).2.category = categoryFor quality ∧
    (reviewUpdate w quality clockNow).2.repetitions =
      (sm2 quality (wordState w) clockNow).repetitions ∧
    (reviewUpdate w quality clockNow).2.ease_factor =
      (sm2 quality (wordState w) clockNow).easeFactor ∧
    (reviewUpdate w quality clockNow).2.interval_days =
      (sm2 quality (wordState w) clockNow).intervalDays ∧
    (reviewUpdate w quality clockNow).2.next_review_at =
      (sm2 quality (wordState w) clockNow).nextReviewAt ∧
    (∀ (st : SessionState) (ok : Bool),
      st.dueWords.get? st.currentIndex = some w →
        (handleReview st quality clockNow ok).2.1 = some (reviewUpdate w quality clockNow)) := by
  refine ⟨rfl, rfl, rfl, ?_, rfl, rfl, rfl, rfl, rfl, rfl, ?_⟩
  · intro h5 h1
    simp [categoryFor, h5, h1]
  · intro st ok hw
    rw [List.get?_eq_getElem?] at hw
    cases ok <;> simp [handleReview, hw]

/-- C6: when the persistence of the current word's new state fails, the
session state is unchanged — cursor, reviewed count, revealed flag and
session-complete flag all keep their values, the same word stays
presented — and the failure is reported rather than the review being
silently skipped. -/
theorem handleReview_failure_atomic (st : SessionState) (quality clockNow : ℤ)
    (h : st.currentIndex < st.dueWords.length) :
    (handleReview st quality clockNow false).1 = st ∧
    (handleReview st quality clockNow false).1.currentIndex = st.currentIndex ∧
    (handleReview st quality clockNow false).1.reviewed = st.reviewed ∧
    (handleReview st quality clockNow false).1.revealed = st.revealed ∧
    (handleReview st quality clockNow false).1.sessionComplete = st.sessionComplete ∧
    ((handleReview st quality clockNow false).1.dueWords.get?
        (handleReview st quality clockNow false).1.currentIndex =
      st.dueWords.get? st.currentIndex) ∧
    (handleReview st quality clockNow false).2.2 = true := by
  obtain ⟨w, hw⟩ : ∃ w, st.dueWords.get? st.currentIndex = some w :=
    ⟨st.dueWords.get ⟨st.currentIndex, h⟩, List.get?_eq_get h⟩
  have hred : handleReview st quality clockNow false =
      (st, some (reviewUpdate w quality clockNow), true) := by
    rw [List.get?_eq_getElem?] at hw
    simp [handleReview, hw]
  rw [hred]
  exact ⟨rfl, rfl, rfl, rfl, rfl, rfl, rfl⟩

/-- Witness for C6: a failed persistence on a one-word session with the
answer revealed leaves every session field as it was and reports the
failure. -/
theorem handleReview_failure_atomic_witness :
    (handleReview
        { dueWords := [sampleWord "w1" 0], currentIndex := 0, revealed := true,
          sessionComplete := false, reviewed := 0 } 3 0 false).1 =
      { dueWords := [sampleWord "w1" 0], currentIndex := 0, revealed := true,
        sessionComplete := false, reviewed := 0 } ∧
    (handleReview
        { dueWords := [sampleWord "w1" 0], currentIndex := 0, revealed := true,
          sessionComplete := false, reviewed := 0 } 3 0 false).2.2 = true := by
  have h := handleReview_failure_atomic
    { dueWords := [sampleWord "w1" 0], currentIndex := 0, revealed := true,
      sessionComplete := false, reviewed := 0 } 3 0 (by simp)
  exact ⟨h.1, h.2.2.2.2.2.2⟩

/-- C7: the due-word query returns exactly the rows with
`next_review_at ≤ now` (as a permutation of the filtered table, hence the
same members), sorted ascending by `next_review_at`; on the concrete
Scenario D table (due at T-3, T-1, T-5 days) it yields the order
T-5, T-3, T-1. -/
theorem getDueWords_spec (table : List VocabWord) (now : ℤ) :
    (∀ w : VocabWord, w ∈ getDueWords table now ↔ w ∈ table ∧ w.next_review_at ≤ now) ∧
    (getDueWords table now).Perm
      (table.filter (fun w => decide (w.next_review_at ≤ now))) ∧
    List.Sorted dueOrder (getDueWords table now) ∧
    (getDueWords [sampleWord "a" (-3), sampleWord "b" (-1), sampleWord "c" (-5)] 0).map
        VocabWord.next_review_at = [-5, -3, -1] := by
  refine ⟨?_, ?_, ?_, ?_⟩
  · intro w
    simp [getDueWords, List.mem_filter]
  · exact List.perm_insertionSort dueOrder _
  · exact List.sorted_insertionSort dueOrder _
  · rfl

/-- An Easy step increments `repetitions`. -/
theorem easyStep_repetitions (s : SM2State) : (easyStep s).repetitions = s.repetitions + 1 := by
  norm_num [easyStep, sm2]

/-- An Easy step keeps the ease factor at least `1.3`. -/
theorem easyStep_ease_lb (s : SM2State) : (1.3 : ℚ) ≤ (easyStep s).easeFactor :=
  sm2_easeFactor_lb 5 s 0

/-- From `repetitions = 0` an Easy step schedules a 1-day interval. -/
theorem easyStep_interval_rep0 (s : SM2State) (h0 : s.repetitions = 0) :
    (easyStep s).intervalDays = 1 := by
  norm_num [easyStep, sm2, h0]

/-- From `repetitions = 1` an Easy step schedules a 6-day interval. -/
theorem easyStep_interval_rep1 (s : SM2State) (h1 : s.repetitions = 1) :
    (easyStep s).intervalDays = 6 := by
  norm_num [easyStep, sm2, h1]

/-- From `repetitions ≥ 2`, a positive interval and ease at least `1.3`,
an Easy step never shrinks the interval: `⌈d·e⌉ ≥ d` for `e ≥ 1.3`. -/
theorem easyStep_interval_ge (s : SM2State) (h2 : 2 ≤ s.repetitions)
    (hd : 1 ≤ s.intervalDays) (he : (1.3 : ℚ) ≤ s.easeFactor) :
    s.intervalDays ≤ (easyStep s).intervalDays := by
  have h0 : ¬s.repetitions = 0 := by omega
  have h1 : ¬s.repetitions = 1 := by omega
  have hval : (easyStep s).intervalDays = ⌈(s.intervalDays : ℚ) * s.easeFactor⌉ := by
    norm_num [easyStep, sm2, h0, h1]
  rw [hval]
  have hd2 : (1 : ℚ) ≤ (s.intervalDays : ℚ) := by exact_mod_cast hd
  have hx : (s.intervalDays : ℚ) ≤ (s.intervalDays : ℚ) * s.easeFactor := by nlinarith
  calc s.intervalDays = ⌈((s.intervalDays : ℚ))⌉ := (Int.ceil_intCast s.intervalDays).symm
    _ ≤ ⌈(s.intervalDays : ℚ) * s.easeFactor⌉ := Int.ceil_mono hx

/-- Iterating Easy steps unfolds one step at a time. -/
theorem easyIter_succ (s : SM2State) (n : ℕ) :
    easyIter s (n + 1) = easyStep (easyIter s n) := rfl

/-- After `n` Easy reviews from `repetitions = 0`, `repetitions = n`. -/
theorem easyIter_repetitions (s : SM2State) (h0 : s.repetitions = 0) (n : ℕ) :
    (easyIter s n).repetitions = n := by
  induction n with
  | zero => exact h0
  | succ n ih =>
      rw [easyIter_succ, easyStep_repetitions, ih]
      push_cast
      ring

/-- The ease factor stays at least `1.3` along the Easy iteration. -/
theorem easyIter_ease_lb (s : SM2State) (he : (1.3 : ℚ) ≤ s.easeFactor) (n : ℕ) :
    (1.3 : ℚ) ≤ (easyIter s n).easeFactor := by
  cases n with
  | zero => exact he
  | succ n => exact easyStep_ease_lb (easyIter s n)

/-- Combined invariant for the Easy iteration from `repetitions = 0`: each
produced interval is at least one day and at most the next one. -/
theorem easyIter_interval_chain (s : SM2State) (h0 : s.repetitions = 0)
    (he : (1.3 : ℚ) ≤ s.easeFactor) (n : ℕ) :
    1 ≤ (easyIter s (n + 1)).intervalDays ∧
      (easyIter s (n + 1)).intervalDays ≤ (easyIter s (n + 2)).intervalDays := by
  induction n with
  | zero =>
      have e1 : (easyIter s 1).intervalDays = 1 := easyStep_interval_rep0 s h0
      have r1 : (easyIter s 1).repetitions = 1 := by
        rw [easyIter_repetitions s h0 1]
        norm_num
      have e2 : (easyIter s 2).intervalDays = 6 :=
        easyStep_interval_rep1 (easyIter s 1) r1
      rw [e1, e2]
      norm_num
  | succ n ih =>
      have hlow : 1 ≤ (easyIter s (n + 2)).intervalDays := le_trans ih.1 ih.2
      refine ⟨hlow, ?_⟩
      have hrep : 2 ≤ (easyIter s (n + 2)).repetitions := by
        rw [easyIter_repetitions s h0 (n + 2)]
        push_cast
        omega
      exact easyStep_interval_ge (easyIter s (n + 2)) hrep hlow
        (easyIter_ease_lb s he (n + 2))

/-- C8: starting from `repetitions = 0` with any `easeFactor ≥ 1.3`,
successive Easy (`quality = 5`) reviews produce a non-decreasing interval
sequence, beginning 1, 6, …. -/
theorem sm2_easy_growth (s : SM2State) (h0 : s.repetitions = 0)
    (he : (1.3 : ℚ) ≤ s.easeFactor) :
    (easyIter s 1).intervalDays = 1 ∧
    (easyIter s 2).intervalDays = 6 ∧
    ∀ n : ℕ, (easyIter s (n + 1)).intervalDays ≤ (easyIter s (n + 2)).intervalDays := by
  refine ⟨easyStep_interval_rep0 s h0, ?_, fun n => (easyIter_interval_chain s h0 he n).2⟩
  refine easyStep_interval_rep1 (easyIter s 1) ?_
  rw [easyIter_repetitions s h0 1]
  norm_num

/-- Witness for C8 from the default new-word state: intervals 1 then 6,
and the third produced interval is at most the fourth. -/
theorem sm2_easy_growth_witness :
    (easyIter { repetitions := 0, easeFactor := 2.5, intervalDays := 0, nextReviewAt := 0 }
        1).intervalDays = 1 ∧
    (easyIter { repetitions := 0, easeFactor := 2.5, intervalDays := 0, nextReviewAt := 0 }
        2).intervalDays = 6 ∧
    (easyIter { repetitions := 0, easeFactor := 2.5, intervalDays := 0, nextReviewAt := 0 }
        3).intervalDays ≤
      (easyIter { repetitions := 0, easeFactor := 2.5, intervalDays := 0, nextReviewAt := 0 }
        4).intervalDays := by
  have h := sm2_easy_growth
    { repetitions := 0, easeFactor := 2.5, intervalDays := 0, nextReviewAt := 0 }
    rfl (by norm_num)
  exact ⟨h.1, h.2.1, h.2.2 2⟩

end VocabApp
